import Mathlib

/-!
Verification of the tactilis repository: shallow embedding of the frame
decoder (`sollertia-core/src/lib.rs`), the serial polling loop and the
websocket correlation handler (`sollertia-ui/src/main.rs`), the Unity
broadcast handle (`core/src/unity.rs`) and the legacy text parser
(`core/src/arduino.rs`), together with theorems about the spec's claims.

Conventions of the embedding:
* machine integers (u8/u16/u64) become `Nat`; byte well-formedness
  (`< 256`) is carried as hypotheses where a claim needs it;
* `Instant` values become a `Nat` monotonic clock passed explicitly;
  `Instant::elapsed` at time `now` for an instant `t` is the truncated
  subtraction `now - t` (Rust's elapsed is saturating and monotone);
* the floating-point spatial distance computed by `calculate_distance`
  is irrelevant to every claim about the correlation engine, so the
  already-computed distance is passed to the handler as a rational;
* fallible Rust functions returning `Result` become `Except`.
-/

namespace Tactilis

/-- Embedding of `Finger` from `sollertia-core/src/lib.rs` (lines 4-10). -/
inductive Finger where
  | Index
  | Middle
  | StartMessage
  | BufferAlignment
deriving DecidableEq

/-- Embedding of `Finger::from_u8` (`sollertia-core/src/lib.rs` lines 13-20).
The `u8::MAX => StartMessage` arm is commented out in the source, so only
0 and 1 succeed. -/
def Finger.from_u8 (input : Nat) : Except Nat Finger :=
  match input with
  | 0 => .ok .Index
  | 1 => .ok .Middle
  | _ => .error input

/-- A raw 4-byte serial frame, `[u8; 4]` in the source. Bytes are `Nat`s;
well-formedness (`< 256`) is a hypothesis where needed. -/
structure RawFrame where
  b0 : Nat
  b1 : Nat
  b2 : Nat
  b3 : Nat
deriving DecidableEq

/-- All four bytes of the frame are in the `u8` range. -/
def RawFrame.wf (f : RawFrame) : Prop :=
  f.b0 < 256 ∧ f.b1 < 256 ∧ f.b2 < 256 ∧ f.b3 < 256

/-- Embedding of `Pressure` from `sollertia-core/src/lib.rs` (lines 35-39). -/
structure Pressure where
  pressure : Nat
  finger : Finger
deriving DecidableEq

/-- Embedding of `Pressure::from_serial` (`sollertia-core/src/lib.rs`
lines 86-107): the two reserved frames decode to their markers, any other
frame must carry the 0xFF sentinel in byte 0, the pressure is the u16
big-endian shift-or of bytes 1 and 2, and byte 3 selects the finger. -/
def Pressure.from_serial (input : RawFrame) : Except RawFrame Pressure :=
  if input = ⟨1, 0, 0, 0⟩ then
    .ok { pressure := 0, finger := .BufferAlignment }
  else if input = ⟨255, 0, 0, 255⟩ then
    .ok { pressure := 0, finger := .StartMessage }
  else if input.b0 ≠ 255 then
    .error input
  else
    match Finger.from_u8 input.b3 with
    | .ok f => .ok { pressure := input.b1 <<< 8 ||| input.b2, finger := f }
    | .error _ => .error input

/-- Embedding of `Pressure::is_start` (`sollertia-core/src/lib.rs`
lines 109-117). -/
def Pressure.is_start (p : Pressure) : Bool :=
  p.pressure == 0 && p.finger == Finger.StartMessage

/-- `PRESSURE_THRESHOLD` from `sollertia-ui/src/main.rs` line 15. -/
def PRESSURE_THRESHOLD : Nat := 100

/-- Embedding of `PressEvent` from `sollertia-ui/src/main.rs` (lines 18-23). -/
structure PressEvent where
  finger : Finger
  pressure : Nat
  timestamp_ms : Nat
deriving DecidableEq

/-- Embedding of `AccuracyRecord` from `sollertia-ui/src/main.rs`
(lines 32-38); the f32 distance is carried as a rational. -/
structure AccuracyRecord where
  finger : Finger
  distance : ℚ
  timestamp : Nat
  reaction_time_ms : Nat
deriving DecidableEq

/-- Embedding of `SharedState` from `sollertia-ui/src/main.rs` (lines 40-49).
Note the single `pending_press` slot shared by both channels. -/
structure SharedState where
  index_pressure : Nat
  middle_pressure : Nat
  accuracy_records : List AccuracyRecord
  connected_clients : Nat
  serial_connected : Bool
  last_press_time : Option Nat
  pending_press : Option PressEvent
deriving DecidableEq

/-- `SharedState::default()`: zeroes, empty history, no pending press. -/
def SharedState.init : SharedState :=
  { index_pressure := 0
    middle_pressure := 0
    accuracy_records := []
    connected_clients := 0
    serial_connected := false
    last_press_time := none
    pending_press := none }

/-- State of one pass of the inner read loop of `run_serial_polling`
(`sollertia-ui/src/main.rs` lines 268-328): the local sync flag and
per-channel latches, the shared state, and the log of events handed to
`press_tx.send` (the broadcast fan-out). -/
structure PollState where
  is_started : Bool
  prev_index_above : Bool
  prev_middle_above : Bool
  shared : SharedState
  sent_events : List PressEvent
deriving DecidableEq

/-- Initial loop state (`sollertia-ui/src/main.rs` lines 268-272):
latches false, not yet synchronized. -/
def PollState.init : PollState :=
  { is_started := false
    prev_index_above := false
    prev_middle_above := false
    shared := SharedState.init
    sent_events := [] }

/-- Embedding of the body of the inner read loop of `run_serial_polling`
(`sollertia-ui/src/main.rs` lines 282-327) for one 4-byte frame read at
monotonic time `now`: decode failures are dropped; before the start
marker every decoded value except `StartMessage` is discarded; after it,
data samples update the live pressure, the rising-edge detector fires a
`PressEvent` (recorded in `sent_events`, `last_press_time` and the
pending-press slot), and the latch is updated unconditionally. -/
def processFrame (st : PollState) (now : Nat) (buffer : RawFrame) : PollState :=
  match Pressure.from_serial buffer with
  | .error _ => st
  | .ok pressure =>
    if !st.is_started then
      if pressure.is_start then { st with is_started := true } else st
    else
      match pressure.finger with
      | .Index =>
        let s1 := { st with shared := { st.shared with index_pressure := pressure.pressure } }
        let above := decide (pressure.pressure > PRESSURE_THRESHOLD)
        if above && !st.prev_index_above then
          let event : PressEvent :=
            { finger := .Index, pressure := pressure.pressure, timestamp_ms := now }
          { s1 with
            shared := { s1.shared with
              last_press_time := some now
              pending_press := some event }
            sent_events := s1.sent_events ++ [event]
            prev_index_above := above }
        else
          { s1 with prev_index_above := above }
      | .Middle =>
        let s1 := { st with shared := { st.shared with middle_pressure := pressure.pressure } }
        let above := decide (pressure.pressure > PRESSURE_THRESHOLD)
        if above && !st.prev_middle_above then
          let event : PressEvent :=
            { finger := .Middle, pressure := pressure.pressure, timestamp_ms := now }
          { s1 with
            shared := { s1.shared with
              last_press_time := some now
              pending_press := some event }
            sent_events := s1.sent_events ++ [event]
            prev_middle_above := above }
        else
          { s1 with prev_middle_above := above }
      | .StartMessage => st
      | .BufferAlignment => st

/-- Embedding of the accuracy-response branch of `run_websocket_server`
(`sollertia-ui/src/main.rs` lines 389-419), applied when a text message
parses as a `UnityResponse`, at monotonic arrival time `now`, with the
already-computed spatial `distance`: reaction time is the elapsed time
since `last_press_time` (or 0 when unset), the record's finger comes from
the pending-press slot (defaulting to `Index`), the record is pushed onto
the history, the oldest record is popped when the length exceeds 1000,
and the pending slot is cleared. -/
def handleUnityResponse (s : SharedState) (now : Nat) (distance : ℚ) : SharedState :=
  let reaction_time : Nat :=
    match s.last_press_time with
    | some t => now - t
    | none => 0
  let finger : Finger :=
    match s.pending_press with
    | some p => p.finger
    | none => .Index
  let records := s.accuracy_records ++
    [{ finger := finger, distance := distance, timestamp := now,
       reaction_time_ms := reaction_time }]
  let records := if records.length > 1000 then records.tail else records
  { s with accuracy_records := records, pending_press := none }

/-- An externally observable operation on the shared state: either a
serial frame arriving in the polling loop, or a parsed accuracy response
arriving in the websocket handler. -/
inductive Op where
  | frame (now : Nat) (buffer : RawFrame)
  | response (now : Nat) (distance : ℚ)

/-- Apply one operation to the combined state. -/
def stepOp (st : PollState) : Op → PollState
  | .frame now buffer => processFrame st now buffer
  | .response now distance =>
    { st with shared := handleUnityResponse st.shared now distance }

/-- Run a sequence of operations from a given state. -/
def runOps (st : PollState) : List Op → PollState
  | [] => st
  | op :: ops => runOps (stepOp st op) ops

/-- The pending press attributable to channel `c`, under the spec's
reading that each channel has its own slot: the single slot's content
when it holds a press of that channel, and nothing otherwise. -/
def pendingFor (c : Finger) (s : SharedState) : Option PressEvent :=
  s.pending_press.bind (fun p => if p.finger = c then some p else none)

/-- Invariant linking the two correlation fields of `SharedState`: any
pending press was stored together with its press instant. -/
def PendingInv (s : SharedState) : Prop :=
  ∀ e, s.pending_press = some e → s.last_press_time = some e.timestamp_ms

/-- The per-channel rising-edge detector of `run_serial_polling`
(`sollertia-ui/src/main.rs` lines 296-307 and 311-322; the same
latch-and-compare appears in `core/src/app.rs` lines 160-179): for each
sample compute `above = pressure > threshold`, emit on `above && !prev`,
then update the latch to `above` unconditionally. Returns the per-sample
emission flags and the final latch. -/
def detectFold (threshold : Nat) (prev : Bool) : List Nat → List Bool × Bool
  | [] => ([], prev)
  | p :: ps =>
    let above := decide (p > threshold)
    let rest := detectFold threshold above ps
    ((above && !prev) :: rest.1, rest.2)

/-- Model of the tokio broadcast sender used as the fan-out in
`core/src/unity.rs` (line 94) and `sollertia-ui/src/main.rs` (line 53):
each live subscriber has a queue of undelivered messages. -/
structure BroadcastSender (α : Type) where
  subscribers : List (List α)
deriving DecidableEq

/-- Error type of `UnityServerHandle::send` (`core/src/unity.rs`
lines 15-25); only the variant reachable from `send` is modelled. -/
inductive UnityError where
  | NotConnected
deriving DecidableEq

/-- Modelled from tokio's documented `broadcast::Sender::send` semantics
(library code, not in this repository): with no live subscribers the
message is returned as an error; otherwise it is appended to every
subscriber's queue and the subscriber count is returned. -/
def broadcastSend (ch : BroadcastSender α) (msg : α) :
    BroadcastSender α × Except Unit Nat :=
  if ch.subscribers.length = 0 then
    (ch, .error ())
  else
    ({ subscribers := ch.subscribers.map (fun q => q ++ [msg]) },
     .ok ch.subscribers.length)

/-- Embedding of `UnityServerHandle::send` (`core/src/unity.rs`
lines 71-75): a broadcast send error is mapped to
`UnityError::NotConnected`. -/
def unityHandleSend (ch : BroadcastSender α) (msg : α) :
    BroadcastSender α × Except UnityError Unit :=
  match broadcastSend ch msg with
  | (ch2, .ok _) => (ch2, .ok ())
  | (ch2, .error _) => (ch2, .error .NotConnected)

/-- Embedding of `TactilisApp::send_to_unity` (`core/src/app.rs`
lines 256-260): the result of `handle.send(msg)` is discarded
(`let _ = ...`), so only the channel state remains. -/
def send_to_unity (ch : BroadcastSender α) (msg : α) : BroadcastSender α :=
  (unityHandleSend ch msg).1

/-- Embedding of `Finger` from `core/src/protocol.rs` (lines 12-17);
distinct from the sollertia-core `Finger`, it has no marker variants. -/
inductive ArduinoFinger where
  | Index
  | Middle
deriving DecidableEq

/-- Embedding of `SensorReading` from `core/src/protocol.rs`
(lines 20-25); the normalized f32 pressure is carried as a rational. -/
structure SensorReading where
  finger : ArduinoFinger
  pressure : ℚ
  timestamp_ms : Nat
deriving DecidableEq

/-- Embedding of `ArduinoMessage` from `core/src/protocol.rs`
(lines 70-79). A line beginning with an opening brace is handed to
serde_json, which is not modelled; such lines are captured verbatim by
the `JsonLine` constructor. -/
inductive ArduinoMessage where
  | Sensor (reading : SensorReading)
  | Ready (firmware_version : String)
  | JsonLine (line : List Char)
deriving DecidableEq

/-- Parse-failure tags of `parse_arduino_message`
(`core/src/arduino.rs` lines 125-127, 130-134, 136-140, 160-162). -/
inductive ParseErr where
  | UnknownFinger
  | InvalidPressure
  | InvalidTimestamp
  | UnknownFormat
deriving DecidableEq

/-- Comma splitting as done by Rust's `str::split(',')`: every comma
separates two (possibly empty) fields. -/
def splitComma : List Char → List (List Char)
  | [] => [[]]
  | c :: cs =>
    let rest := splitComma cs
    if c = ',' then
      [] :: rest
    else
      match rest with
      | [] => [[c]]
      | field :: fields => (c :: field) :: fields

/-- Decimal digit-string value: `some` of the value when the string is a
nonempty run of ASCII digits, `none` otherwise (the digit-run core of
Rust's `str::parse` for unsigned integers). -/
def charsToNat? (cs : List Char) : Option Nat :=
  if cs ≠ [] ∧ cs.all (fun c => c.isDigit) then
    some (cs.foldl (fun acc c => acc * 10 + (c.toNat - 48)) 0)
  else
    none

/-- Rust `str::parse::<u16>`: digits with the u16 range check. -/
def parseU16 (cs : List Char) : Option Nat :=
  match charsToNat? cs with
  | some n => if n < 65536 then some n else none
  | none => none

/-- Rust `str::parse::<u64>`: digits with the u64 range check. -/
def parseU64 (cs : List Char) : Option Nat :=
  match charsToNat? cs with
  | some n => if n < 18446744073709551616 then some n else none
  | none => none

/-- The opening-brace character that selects the JSON branch. -/
def jsonOpen : Char := Char.ofNat 123

/-- Embedding of `parse_arduino_message` (`core/src/arduino.rs`
lines 111-163) on the line's characters: a line starting with an opening
brace goes to serde_json (unmodelled, kept verbatim); otherwise a
three-field comma-separated line is the legacy sensor form with the raw
value normalized by 1023.0 (exact rational division here); otherwise a
`READY` line carries a firmware version; anything else is an error. -/
def parse_arduino_message (line : List Char) : Except ParseErr ArduinoMessage :=
  if line.head? = some jsonOpen then
    .ok (.JsonLine line)
  else
    match splitComma line with
    | [c, rawStr, tsStr] =>
      if c = ['I'] ∨ c = ['M'] then
        match parseU16 rawStr with
        | none => .error .InvalidPressure
        | some raw =>
          match parseU64 tsStr with
          | none => .error .InvalidTimestamp
          | some ts =>
            .ok (.Sensor
              { finger := if c = ['I'] then .Index else .Middle
                pressure := (raw : ℚ) / 1023
                timestamp_ms := ts })
      else
        .error .UnknownFinger
    | _ =>
      if line.take 6 = ['R', 'E', 'A', 'D', 'Y', ' '] then
        .ok (.Ready (String.mk (line.drop 6)))
      else if line.take 5 = ['R', 'E', 'A', 'D', 'Y'] then
        .ok (.Ready "unknown")
      else
        .error .UnknownFormat

/-! ## Theorems -/

/-- For a low byte below 256 the u16 big-endian shift-or equals the
arithmetic big-endian value. -/
theorem shiftOr_eq_be (a b : Nat) (hb : b < 256) : a <<< 8 ||| b = 256 * a + b := by
  apply Nat.eq_of_testBit_eq
  intro i
  have hb2 : b < 2 ^ 8 := hb
  have h256 : (256 : Nat) * a + b = 2 ^ 8 * a + b := by norm_num
  rw [Nat.testBit_lor, Nat.testBit_shiftLeft, h256,
    Nat.testBit_mul_pow_two_add a hb2 i]
  by_cases h : i < 8
  · have h8 : ¬ (i ≥ 8) := by omega
    simp [h, h8]
  · have h8 : i ≥ 8 := by omega
    have hbi : b.testBit i = false := by
      apply Nat.testBit_lt_two_pow
      calc b < 2 ^ 8 := hb2
        _ ≤ 2 ^ i := Nat.pow_le_pow_right (by omega) h8
    simp [h, h8, hbi]

/-- Claim C3: for every 4-byte frame whose first byte is 0xFF and whose
fourth byte is 0 or 1, decoding succeeds, the channel is `Index` for
code 0 and `Middle` for code 1, and the pressure is exactly the
big-endian 16-bit value `256 * b1 + b2` formed from bytes 1 and 2 (the
reserved frame `[0xFF,0,0,0xFF]` has fourth byte 255, outside {0,1}, so
it does not intersect this family). -/
theorem decode_roundtrip (b1 b2 b3 : Nat) (hb1 : b1 < 256) (hb2 : b2 < 256)
    (hb3 : b3 = 0 ∨ b3 = 1) :
    Pressure.from_serial ⟨255, b1, b2, b3⟩ =
      .ok { pressure := 256 * b1 + b2,
            finger := if b3 = 0 then .Index else .Middle } := by
  have hne1 : (⟨255, b1, b2, b3⟩ : RawFrame) ≠ ⟨1, 0, 0, 0⟩ := by
    intro h
    cases h
  have hne2 : (⟨255, b1, b2, b3⟩ : RawFrame) ≠ ⟨255, 0, 0, 255⟩ := by
    intro h
    cases h
    omega
  rcases hb3 with h3 | h3 <;>
    simp [Pressure.from_serial, hne1, hne2, h3, Finger.from_u8,
      shiftOr_eq_be b1 b2 hb2]

/-- Claim C3 witness: the frame `[0xFF, 1, 244, 0]` decodes to an Index
sample of pressure 500 = 256·1 + 244. -/
theorem decode_roundtrip_witness :
    Pressure.from_serial ⟨255, 1, 244, 0⟩ =
      .ok { pressure := 500, finger := .Index } := by
  have h := decode_roundtrip 1 244 0 (by decide) (by decide) (Or.inl rfl)
  simpa using h

/-- `Finger::from_u8` only ever succeeds with a real channel. -/
theorem from_u8_ok (n : Nat) (fg : Finger) (h : Finger.from_u8 n = .ok fg) :
    fg = .Index ∨ fg = .Middle := by
  rcases n with _ | _ | n
  · simp [Finger.from_u8] at h
    exact Or.inl h.symm
  · simp [Finger.from_u8] at h
    exact Or.inr h.symm
  · simp [Finger.from_u8] at h

/-- Claim C9: only the exact frame `[0xFF,0,0,0xFF]` decodes to the
`StartMessage` marker; every frame whose first byte is 0xFF and whose
fourth byte is neither 0 nor 1, other than that reserved frame, is a
decode error carrying the offending bytes; and every successful decode
that is not a control marker has channel `Index` or `Middle`. -/
theorem start_marker_unique (f : RawFrame) :
    (∀ p, Pressure.from_serial f = .ok p → p.finger = .StartMessage →
      f = ⟨255, 0, 0, 255⟩)
    ∧ (f.b0 = 255 → f ≠ ⟨255, 0, 0, 255⟩ → f.b3 ≠ 0 → f.b3 ≠ 1 →
      Pressure.from_serial f = .error f)
    ∧ (∀ p, Pressure.from_serial f = .ok p → p.finger ≠ .StartMessage →
      p.finger ≠ .BufferAlignment → p.finger = .Index ∨ p.finger = .Middle) := by
  refine ⟨?_, ?_, ?_⟩
  · intro p hok hfin
    by_cases h2 : f = ⟨255, 0, 0, 255⟩
    · exact h2
    exfalso
    by_cases h1 : f = ⟨1, 0, 0, 0⟩
    · rw [Pressure.from_serial, if_pos h1] at hok
      simp only [Except.ok.injEq] at hok
      rw [← hok] at hfin
      cases hfin
    · rw [Pressure.from_serial, if_neg h1, if_neg h2] at hok
      by_cases h0 : f.b0 ≠ 255
      · rw [if_pos h0] at hok
        cases hok
      · rw [if_neg h0] at hok
        cases hfu : Finger.from_u8 f.b3 with
        | ok fg =>
          rw [hfu] at hok
          simp only [Except.ok.injEq] at hok
          rw [← hok] at hfin
          rcases from_u8_ok f.b3 fg hfu with h | h <;> simp [h] at hfin
        | error e =>
          rw [hfu] at hok
          cases hok
  · intro h0 h2 hz ho
    have h1 : f ≠ ⟨1, 0, 0, 0⟩ := by
      intro h
      rw [h] at h0
      cases h0
    rw [Pressure.from_serial, if_neg h1, if_neg h2]
    have h0n : ¬ f.b0 ≠ 255 := by
      intro h
      exact h h0
    rw [if_neg h0n]
    cases hfu : Finger.from_u8 f.b3 with
    | ok fg =>
      exfalso
      rcases hb3 : f.b3 with _ | _ | n
      · exact hz hb3
      · exact ho hb3
      · rw [hb3] at hfu
        simp [Finger.from_u8] at hfu
    | error e => rfl
  · intro p hok hs hb
    cases hf : p.finger
    · exact Or.inl rfl
    · exact Or.inr rfl
    · exact absurd hf hs
    · exact absurd hf hb

/-- Claim C9 witness: the frame `[0xFF,3,7,9]` (sentinel right, channel
code 9) is rejected with the offending bytes, and the decoded sample of
`[0xFF,0,5,1]` has a real channel. -/
theorem start_marker_unique_witness :
    Pressure.from_serial ⟨255, 3, 7, 9⟩ = .error ⟨255, 3, 7, 9⟩
    ∧ (Pressure.from_serial ⟨255, 0, 5, 1⟩ =
        .ok { pressure := 5, finger := .Middle }
      ∧ (Finger.Middle = Finger.Index ∨ Finger.Middle = Finger.Middle)) := by
  refine ⟨?_, rfl, ?_⟩
  · exact (start_marker_unique ⟨255, 3, 7, 9⟩).2.1 rfl (by decide)
      (by decide) (by decide)
  · exact (start_marker_unique ⟨255, 0, 5, 1⟩).2.2
      { pressure := 5, finger := .Middle } rfl (by decide) (by decide)

/-- Claim C4: for every sequence of pressure samples, the detector emits
exactly at those samples that are strictly above the threshold while the
previous sample was at or below it (the initial latch standing in for the
sample before the first); the latch is updated after every sample, so the
final latch is the above-threshold status of the last sample; and the
embedded polling loop performs exactly this per-sample computation for an
Index data sample — it emits one event when `above && !prev` and updates
the latch to `above` unconditionally. A contiguous above-threshold run
therefore emits only at its first sample. -/
theorem press_edge_detector (threshold : Nat) (prev : Bool) (ps : List Nat) :
    (detectFold threshold prev ps).1 =
      List.zipWith (fun p q => decide (p > threshold) && !q) ps
        (prev :: ps.map (fun p => decide (p > threshold)))
    ∧ (detectFold threshold prev ps).2 =
      (ps.map (fun p => decide (p > threshold))).getLastD prev
    ∧ (∀ (st : PollState) (now : Nat) (buf : RawFrame) (p : Pressure),
      st.is_started = true → Pressure.from_serial buf = .ok p →
      p.finger = .Index →
      (processFrame st now buf).prev_index_above =
        decide (p.pressure > PRESSURE_THRESHOLD)
      ∧ (processFrame st now buf).sent_events.length =
        st.sent_events.length +
          (if decide (p.pressure > PRESSURE_THRESHOLD) && !st.prev_index_above
            then 1 else 0)) := by
  refine ⟨?_, ?_, ?_⟩
  · induction ps generalizing prev with
    | nil => rfl
    | cons p ps ih => simp [detectFold, ih (decide (p > threshold))]
  · induction ps generalizing prev with
    | nil => rfl
    | cons p ps ih =>
      simp only [detectFold, List.map_cons, List.getLastD_cons]
      exact ih (decide (p > threshold))
  · intro st now buf p hst hok hfin
    obtain ⟨pp, pf⟩ := p
    simp only at hfin
    subst hfin
    by_cases hc : (decide (pp > PRESSURE_THRESHOLD) && !st.prev_index_above) = true
    · simp [processFrame, hok, hst, hc]
    · simp [processFrame, hok, hst, hc]

/-- Claim C4 witness: with the serial loop started and latch clear, the
frame `[0xFF,1,244,0]` (pressure 500 on Index) sets the latch and emits
exactly one event. -/
theorem press_edge_detector_witness :
    (processFrame { PollState.init with is_started := true } 5
      ⟨255, 1, 244, 0⟩).prev_index_above = true
    ∧ (processFrame { PollState.init with is_started := true } 5
      ⟨255, 1, 244, 0⟩).sent_events.length = 1 := by
  have h := (press_edge_detector 100 false []).2.2
    { PollState.init with is_started := true } 5 ⟨255, 1, 244, 0⟩
    { pressure := 500, finger := .Index } rfl rfl rfl
  simpa [PollState.init, SharedState.init, PRESSURE_THRESHOLD] using h

/-- A decode that yields the `StartMessage` marker can only have come
from the reserved frame `[0xFF,0,0,0xFF]`. -/
theorem decode_ok_start (buf : RawFrame) (p : Pressure)
    (hok : Pressure.from_serial buf = .ok p)
    (hfin : p.finger = .StartMessage) : buf = ⟨255, 0, 0, 255⟩ := by
  by_cases h2 : buf = ⟨255, 0, 0, 255⟩
  · exact h2
  exfalso
  by_cases h1 : buf = ⟨1, 0, 0, 0⟩
  · rw [Pressure.from_serial, if_pos h1] at hok
    simp only [Except.ok.injEq] at hok
    rw [← hok] at hfin
    cases hfin
  · rw [Pressure.from_serial, if_neg h1, if_neg h2] at hok
    by_cases h0 : buf.b0 ≠ 255
    · rw [if_pos h0] at hok
      cases hok
    · rw [if_neg h0] at hok
      cases hfu : Finger.from_u8 buf.b3 with
      | ok fg =>
        rw [hfu] at hok
        simp only [Except.ok.injEq] at hok
        rw [← hok] at hfin
        rcases from_u8_ok buf.b3 fg hfu with h | h <;> simp [h] at hfin
      | error e =>
        rw [hfu] at hok
        cases hok

/-- Claim C6: while the loop has not observed the start marker
(`is_started = false`), processing any frame leaves the shared state, the
emitted-event log and both latches untouched — decode failures, control
markers and data samples are all discarded — and the loop becomes
synchronized exactly when the frame is the reserved `StartMessage`
constant `[0xFF,0,0,0xFF]`. -/
theorem awaiting_sync_discards (st : PollState) (now : Nat) (buf : RawFrame)
    (h : st.is_started = false) :
    (processFrame st now buf).shared = st.shared
    ∧ (processFrame st now buf).sent_events = st.sent_events
    ∧ (processFrame st now buf).prev_index_above = st.prev_index_above
    ∧ (processFrame st now buf).prev_middle_above = st.prev_middle_above
    ∧ ((processFrame st now buf).is_started = true ↔ buf = ⟨255, 0, 0, 255⟩) := by
  cases hok : Pressure.from_serial buf with
  | error e =>
    simp only [processFrame, hok]
    refine ⟨trivial, trivial, trivial, trivial, ?_⟩
    rw [h]
    constructor
    · intro hfalse
      cases hfalse
    · intro hbuf
      rw [hbuf] at hok
      cases hok
  | ok p =>
    simp only [processFrame, hok, h, Bool.not_false, if_true]
    by_cases hs : p.is_start = true
    · simp only [hs, if_true]
      refine ⟨trivial, trivial, trivial, trivial, ?_⟩
      simp only [true_iff]
      have hfin : p.finger = .StartMessage := by
        unfold Pressure.is_start at hs
        simp only [Bool.and_eq_true, beq_iff_eq] at hs
        exact hs.2
      exact decode_ok_start buf p hok hfin
    · simp only [hs, if_false, Bool.false_eq_true]
      refine ⟨trivial, trivial, trivial, trivial, ?_⟩
      rw [h]
      constructor
      · intro hfalse
        cases hfalse
      · intro hbuf
        exfalso
        rw [hbuf] at hok
        have hp : p = { pressure := 0, finger := .StartMessage } := by
          have : Pressure.from_serial ⟨255, 0, 0, 255⟩ =
              .ok { pressure := 0, finger := .StartMessage } := rfl
          rw [this] at hok
          simp only [Except.ok.injEq] at hok
          exact hok.symm
        rw [hp] at hs
        exact hs rfl

/-- Claim C6 witness: in the unsynchronized state, the alignment frame
`[0x01,0,0,0]`, a garbage frame and a data frame all leave the state
unchanged, and only the start frame flips `is_started`. -/
theorem awaiting_sync_discards_witness :
    (processFrame PollState.init 3 ⟨1, 0, 0, 0⟩).sent_events = [] ∧
    ((processFrame PollState.init 3 ⟨255, 1, 244, 0⟩).is_started = true ↔
      (⟨255, 1, 244, 0⟩ : RawFrame) = ⟨255, 0, 0, 255⟩) ∧
    ((processFrame PollState.init 3 ⟨255, 0, 0, 255⟩).is_started = true ↔
      (⟨255, 0, 0, 255⟩ : RawFrame) = ⟨255, 0, 0, 255⟩) := by
  refine ⟨?_, ?_, ?_⟩
  · exact (awaiting_sync_discards PollState.init 3 ⟨1, 0, 0, 0⟩ rfl).2.1
  · exact (awaiting_sync_discards PollState.init 3 ⟨255, 1, 244, 0⟩ rfl).2.2.2.2
  · exact (awaiting_sync_discards PollState.init 3 ⟨255, 0, 0, 255⟩ rfl).2.2.2.2

/-- Processing a serial frame never touches the accuracy history. -/
theorem processFrame_records (st : PollState) (now : Nat) (buf : RawFrame) :
    (processFrame st now buf).shared.accuracy_records =
      st.shared.accuracy_records := by
  unfold processFrame
  cases Pressure.from_serial buf with
  | error e => rfl
  | ok p =>
    by_cases hst : st.is_started
    all_goals cases hfin : p.finger
    all_goals simp [hst, hfin]
    all_goals split_ifs
    all_goals rfl

/-- One operation preserves the pending-press / last-press link. -/
theorem stepOp_inv (st : PollState) (op : Op) (h : PendingInv st.shared) :
    PendingInv (stepOp st op).shared := by
  cases op with
  | response now dist =>
    intro e he
    simp [stepOp, handleUnityResponse] at he
  | frame now buf =>
    simp only [stepOp]
    unfold processFrame
    cases Pressure.from_serial buf with
    | error e => exact h
    | ok p =>
      by_cases hst : st.is_started
      all_goals cases hfin : p.finger
      all_goals simp [hst, hfin]
      all_goals try split_ifs with hc
      all_goals try exact h
      all_goals intro e he
      all_goals simp only [Option.some.injEq] at he
      all_goals rw [← he]

/-- Every state reachable from the initial state by frame and response
operations keeps the pending press linked to its press instant. -/
theorem runOps_inv (ops : List Op) : PendingInv (runOps PollState.init ops).shared := by
  have general : ∀ (st : PollState), PendingInv st.shared →
      PendingInv (runOps st ops).shared := by
    induction ops with
    | nil => intro st h; exact h
    | cons op ops ih =>
      intro st h
      exact ih (stepOp st op) (stepOp_inv st op h)
  have hinit : PendingInv PollState.init.shared := by
    intro e he
    simp [PollState.init, SharedState.init] at he
  exact general PollState.init hinit

/-- The record appended by the response handler is always the newest
entry of the history, and carries the handler's computed finger and
reaction time. -/
theorem handleUnityResponse_getLast (s : SharedState) (now : Nat) (dist : ℚ) :
    (handleUnityResponse s now dist).accuracy_records.getLast? =
      some { finger := match s.pending_press with
               | some p => p.finger
               | none => .Index
             distance := dist
             timestamp := now
             reaction_time_ms := match s.last_press_time with
               | some t => now - t
               | none => 0 } := by
  simp only [handleUnityResponse]
  split
  next hl =>
    rcases hrec : s.accuracy_records with _ | ⟨a, l2⟩
    · rw [hrec] at hl
      simp at hl
    · simp [List.getLast?_concat]
  next hl =>
    simp [List.getLast?_concat]

/-- Claim C1 counterexample: after a press at t=5 whose response has
already been correlated (clearing the pending slot), a second response at
t=30 arrives with NO pending press, yet its recorded reaction time is
25 — the elapsed time since the old press — not 0 as the claim states,
because `last_press_time` is never cleared. -/
theorem reaction_time_counterexample :
    (runOps PollState.init
      [.frame 0 ⟨255, 0, 0, 255⟩, .frame 5 ⟨255, 1, 244, 0⟩,
       .response 10 0]).shared.pending_press = none
    ∧ ((runOps PollState.init
      [.frame 0 ⟨255, 0, 0, 255⟩, .frame 5 ⟨255, 1, 244, 0⟩,
       .response 10 0, .response 30 0]).shared.accuracy_records.getLast?).map
        (fun r => r.reaction_time_ms) = some 25
    ∧ (25 : Nat) ≠ 0 := by
  refine ⟨rfl, rfl, by decide⟩

/-- Claim C1 (amended): in any reachable state, when a response arrives
at time `now` while a pending press exists, the appended record's
reaction time is `now` minus that press's timestamp (truncated,
non-negative by construction); when no press has ever been latched
(`last_press_time` unset) the reaction time is 0. (As stated the claim
is false: a response arriving with no pending press but after an earlier
correlated press records the time since that earlier press, not 0.) -/
theorem reaction_time_amended (ops : List Op) (now : Nat) (dist : ℚ) :
    (∀ e, (runOps PollState.init ops).shared.pending_press = some e →
      ((handleUnityResponse (runOps PollState.init ops).shared now
          dist).accuracy_records.getLast?).map (fun r => r.reaction_time_ms) =
        some (now - e.timestamp_ms))
    ∧ ((runOps PollState.init ops).shared.last_press_time = none →
      ((handleUnityResponse (runOps PollState.init ops).shared now
          dist).accuracy_records.getLast?).map (fun r => r.reaction_time_ms) =
        some 0) := by
  constructor
  · intro e he
    have hinv := runOps_inv ops e he
    rw [handleUnityResponse_getLast]
    simp [hinv]
  · intro hn
    rw [handleUnityResponse_getLast]
    simp [hn]

/-- Claim C1 amended witness: start marker, press at t=5, response at
t=30 with the press still pending records reaction time 25 = 30 − 5. -/
theorem reaction_time_amended_witness :
    ((handleUnityResponse (runOps PollState.init
        [.frame 0 ⟨255, 0, 0, 255⟩, .frame 5 ⟨255, 1, 244, 0⟩]).shared 30
        0).accuracy_records.getLast?).map (fun r => r.reaction_time_ms) =
      some (30 - 5) := by
  exact (reaction_time_amended
    [.frame 0 ⟨255, 0, 0, 255⟩, .frame 5 ⟨255, 1, 244, 0⟩] 30 0).1
    { finger := .Index, pressure := 500, timestamp_ms := 5 } rfl

/-- Claim C2 counterexample: reading the single slot per-channel as the
spec does, a press on Middle at t=7 erases the not-yet-correlated Index
press taken at t=5 — the "other channel's slot" does not survive,
because the code keeps only one `pending_press` for both channels. -/
theorem pending_slot_counterexample :
    pendingFor .Index (runOps PollState.init
      [.frame 0 ⟨255, 0, 0, 255⟩, .frame 5 ⟨255, 1, 244, 0⟩]).shared =
      some { finger := .Index, pressure := 500, timestamp_ms := 5 }
    ∧ pendingFor .Index (runOps PollState.init
      [.frame 0 ⟨255, 0, 0, 255⟩, .frame 5 ⟨255, 1, 244, 0⟩,
       .frame 7 ⟨255, 1, 244, 1⟩]).shared = none := by
  exact ⟨rfl, rfl⟩

/-- Claim C2 (amended): the correlation engine keeps a SINGLE pending
press slot shared by both channels: a rising-edge press on either
channel unconditionally overwrites the whole slot with the new event
regardless of which channel previously occupied it, and a correlated
response clears the whole slot unconditionally. -/
theorem pending_slot_amended :
    (∀ (st : PollState) (now : Nat) (buf : RawFrame) (p : Pressure),
      st.is_started = true → Pressure.from_serial buf = .ok p →
      ((p.finger = .Index ∧ st.prev_index_above = false)
        ∨ (p.finger = .Middle ∧ st.prev_middle_above = false)) →
      p.pressure > PRESSURE_THRESHOLD →
      (processFrame st now buf).shared.pending_press =
        some { finger := p.finger, pressure := p.pressure, timestamp_ms := now })
    ∧ (∀ (s : SharedState) (now : Nat) (dist : ℚ),
      (handleUnityResponse s now dist).pending_press = none) := by
  constructor
  · intro st now buf p hst hok hch habove
    obtain ⟨pp, pf⟩ := p
    simp only at habove ⊢
    rcases hch with ⟨hf, hprev⟩ | ⟨hf, hprev⟩ <;>
      (simp only at hf; subst hf;
       simp [processFrame, hok, hst, hprev, habove])
  · intro s now dist
    simp [handleUnityResponse]

/-- Claim C2 amended witness: with a Middle press occupying the slot, an
Index press at t=9 overwrites it; a response at t=11 clears it. -/
theorem pending_slot_amended_witness :
    (processFrame
      { is_started := true
        prev_index_above := false
        prev_middle_above := true
        shared := { SharedState.init with
          last_press_time := some 7
          pending_press := some { finger := .Middle, pressure := 300, timestamp_ms := 7 } }
        sent_events := [] } 9 ⟨255, 1, 244, 0⟩).shared.pending_press =
      some { finger := .Index, pressure := 500, timestamp_ms := 9 }
    ∧ (handleUnityResponse { SharedState.init with
        pending_press := some { finger := .Middle, pressure := 300, timestamp_ms := 7 } }
        11 0).pending_press = none := by
  constructor
  · exact pending_slot_amended.1
      { is_started := true
        prev_index_above := false
        prev_middle_above := true
        shared := { SharedState.init with
          last_press_time := some 7
          pending_press := some { finger := .Middle, pressure := 300, timestamp_ms := 7 } }
        sent_events := [] } 9 ⟨255, 1, 244, 0⟩
      { pressure := 500, finger := .Index } rfl rfl (Or.inl ⟨rfl, rfl⟩)
      (by decide)
  · exact pending_slot_amended.2 _ 11 0

/-- A response keeps the history within the 1000-record bound. -/
theorem handleUnityResponse_length_le (s : SharedState) (now : Nat) (dist : ℚ)
    (h : s.accuracy_records.length ≤ 1000) :
    (handleUnityResponse s now dist).accuracy_records.length ≤ 1000 := by
  simp only [handleUnityResponse]
  split
  next hl =>
    simp only [List.length_tail, List.length_append, List.length_cons,
      List.length_nil] at hl ⊢
    omega
  next hl =>
    simp only [List.length_append, List.length_cons, List.length_nil] at hl ⊢
    omega

/-- Claim C5: starting from the empty history, any sequence of frame and
response operations keeps the accuracy history at 1000 records or fewer;
and a response handled when the history holds exactly 1000 records leaves
it at 1000, with everything except the evicted oldest record preserved in
order (the new history minus its appended newest record is exactly the
old history minus its oldest record). -/
theorem history_capacity :
    (∀ ops : List Op,
      (runOps PollState.init ops).shared.accuracy_records.length ≤ 1000)
    ∧ (∀ (s : SharedState) (now : Nat) (dist : ℚ),
      s.accuracy_records.length = 1000 →
      (handleUnityResponse s now dist).accuracy_records.length = 1000
      ∧ (handleUnityResponse s now dist).accuracy_records.dropLast =
        s.accuracy_records.tail) := by
  constructor
  · intro ops
    have general : ∀ (st : PollState),
        st.shared.accuracy_records.length ≤ 1000 →
        (runOps st ops).shared.accuracy_records.length ≤ 1000 := by
      induction ops with
      | nil => intro st h; exact h
      | cons op ops ih =>
        intro st h
        apply ih
        cases op with
        | frame now buf =>
          simpa [stepOp, processFrame_records] using h
        | response now dist =>
          simpa [stepOp] using handleUnityResponse_length_le st.shared now dist h
    simpa [PollState.init, SharedState.init] using
      general PollState.init (by simp [PollState.init, SharedState.init])
  · intro s now dist h
    simp only [handleUnityResponse]
    split
    next hl =>
      constructor
      · simp only [List.length_tail, List.length_append, List.length_cons,
          List.length_nil]
        omega
      · rcases hrec : s.accuracy_records with _ | ⟨a, l2⟩
        · rw [hrec] at h
          simp at h
        · simp only [List.cons_append, List.tail_cons, List.dropLast_concat]
    next hl =>
      exfalso
      simp only [List.length_append, List.length_cons, List.length_nil] at hl
      omega

/-- Claim C5 witness: appending to a full history of 1000 records keeps
the length at 1000 and shifts the window by exactly the oldest record. -/
theorem history_capacity_witness :
    (handleUnityResponse { SharedState.init with
      accuracy_records := List.replicate 1000
        { finger := .Index, distance := 0, timestamp := 0, reaction_time_ms := 0 } }
      3 0).accuracy_records.length = 1000
    ∧ (handleUnityResponse { SharedState.init with
      accuracy_records := List.replicate 1000
        { finger := .Index, distance := 0, timestamp := 0, reaction_time_ms := 0 } }
      3 0).accuracy_records.dropLast =
      (List.replicate 1000
        { finger := .Index, distance := 0, timestamp := 0, reaction_time_ms := 0 }
        : List AccuracyRecord).tail := by
  exact history_capacity.2 { SharedState.init with
    accuracy_records := List.replicate 1000
      { finger := .Index, distance := 0, timestamp := 0, reaction_time_ms := 0 } }
    3 0 (List.length_replicate 1000 _)

/-- Claim C10: a response arriving while no pending press exists is NOT
dropped — a record is still appended as the newest history entry — and
its channel defaults to `Index` whatever the rest of the state (in
particular whatever press was latched last in `last_press_time`). -/
theorem response_without_pending (s : SharedState) (now : Nat) (dist : ℚ)
    (h : s.pending_press = none) :
    ((handleUnityResponse s now dist).accuracy_records.getLast?).map
      (fun r => r.finger) = some Finger.Index
    ∧ (handleUnityResponse s now dist).accuracy_records.length =
      (if s.accuracy_records.length ≥ 1000
        then s.accuracy_records.length
        else s.accuracy_records.length + 1) := by
  constructor
  · rw [handleUnityResponse_getLast]
    simp [h]
  · simp only [handleUnityResponse]
    split
    next hl =>
      simp only [List.length_tail, List.length_append, List.length_cons,
        List.length_nil] at hl ⊢
      rw [if_pos (by omega)]
      omega
    next hl =>
      simp only [List.length_append, List.length_cons, List.length_nil] at hl ⊢
      rw [if_neg (by omega)]

/-- Claim C10 witness: with no pending press but a stale Middle press
instant still latched, a response at t=9 appends an Index record and the
history grows from 0 to 1 entries. -/
theorem response_without_pending_witness :
    ((handleUnityResponse { SharedState.init with last_press_time := some 2 }
      9 0).accuracy_records.getLast?).map (fun r => r.finger) =
      some Finger.Index
    ∧ (handleUnityResponse { SharedState.init with last_press_time := some 2 }
      9 0).accuracy_records.length = 1 := by
  have h := response_without_pending
    { SharedState.init with last_press_time := some 2 } 9 0 rfl
  simpa [SharedState.init] using h

/-- Claim C7 counterexample: publishing on the Unity broadcast fan-out
with zero subscribers does NOT succeed trivially — `UnityServerHandle`'s
send maps the broadcast failure to a `NotConnected` error value. -/
theorem broadcast_error_counterexample :
    (unityHandleSend ({ subscribers := [] } : BroadcastSender PressEvent)
      { finger := .Index, pressure := 500, timestamp_ms := 5 }).2 =
      .error .NotConnected
    ∧ (unityHandleSend ({ subscribers := [] } : BroadcastSender PressEvent)
      { finger := .Index, pressure := 500, timestamp_ms := 5 }).2 ≠ .ok () := by
  refine ⟨rfl, ?_⟩
  intro hcontra
  exact Except.noConfusion hcontra

/-- Claim C7 (amended): publishing with zero subscribers yields a
`NotConnected` error value rather than a success, but the caller
discards the result, the fan-out state is left unchanged, and so the
publisher's subsequent behaviour is the same as after a delivered
publish. -/
theorem broadcast_no_subscribers_amended {α : Type} (ch : BroadcastSender α)
    (msg : α) (h : ch.subscribers = []) :
    (unityHandleSend ch msg).2 = .error .NotConnected
    ∧ send_to_unity ch msg = ch := by
  constructor
  · simp [unityHandleSend, broadcastSend, h]
  · simp [send_to_unity, unityHandleSend, broadcastSend, h]

/-- Claim C7 amended witness: sending a concrete press event into an
empty fan-out reports `NotConnected` and leaves the channel as it was. -/
theorem broadcast_no_subscribers_amended_witness :
    (unityHandleSend ({ subscribers := [] } : BroadcastSender PressEvent)
      { finger := .Middle, pressure := 300, timestamp_ms := 7 }).2 =
      .error .NotConnected
    ∧ send_to_unity ({ subscribers := [] } : BroadcastSender PressEvent)
      { finger := .Middle, pressure := 300, timestamp_ms := 7 } =
      { subscribers := [] } := by
  exact broadcast_no_subscribers_amended { subscribers := [] }
    { finger := .Middle, pressure := 300, timestamp_ms := 7 } rfl

/-- Claim C8 counterexample: the legacy line `I,2046,0` parses
successfully (any u16 raw value is accepted), yet its normalized
pressure 2046/1023 = 2 lies OUTSIDE the 0.0–1.0 range the claim
asserts. -/
theorem legacy_parse_counterexample :
    parse_arduino_message ['I', ',', '2', '0', '4', '6', ',', '0'] =
      .ok (.Sensor { finger := .Index,
                     pressure := ((2046 : Nat) : ℚ) / 1023,
                     timestamp_ms := 0 })
    ∧ ((2046 : Nat) : ℚ) / 1023 = 2
    ∧ ¬ (((2046 : Nat) : ℚ) / 1023 ≤ 1) := by
  refine ⟨rfl, by norm_num, by norm_num⟩

/-- Claim C8 (amended): a legacy line `<I|M>,<raw>,<ts>` with numeric
fields in range parses to a sensor reading with the matching channel and
pressure exactly `raw / 1023`; the pressure is always non-negative, and
lies within the 0.0–1.0 range provided the raw value is within the
10-bit ADC range (raw ≤ 1023) — not for every numeric raw value, as the
unamended claim asserts. -/
theorem legacy_parse_amended (line : List Char) (c : Char) (rs ts : List Char)
    (r t : Nat) (f : ArduinoFinger)
    (hjson : line.head? ≠ some jsonOpen)
    (hsplit : splitComma line = [[c], rs, ts])
    (hc : (c = 'I' ∧ f = .Index) ∨ (c = 'M' ∧ f = .Middle))
    (hr : charsToNat? rs = some r) (hr16 : r < 65536)
    (ht : charsToNat? ts = some t) (ht64 : t < 18446744073709551616) :
    parse_arduino_message line =
      .ok (.Sensor { finger := f, pressure := (r : ℚ) / 1023, timestamp_ms := t })
    ∧ (0 : ℚ) ≤ (r : ℚ) / 1023
    ∧ (r ≤ 1023 → (r : ℚ) / 1023 ≤ 1) := by
  refine ⟨?_, ?_, ?_⟩
  · rcases hc with ⟨hc, hf⟩ | ⟨hc, hf⟩ <;> subst hc <;> subst hf <;>
      simp [parse_arduino_message, hjson, hsplit, parseU16, parseU64,
        hr, ht, hr16, ht64]
  · positivity
  · intro hle
    rw [div_le_one (by norm_num)]
    exact_mod_cast (by exact_mod_cast hle : (r : ℚ) ≤ 1023)

/-- Claim C8 amended witness: the firmware's own example line `I,512,1000`
parses to an Index reading with pressure 512/1023, which lies in [0,1]. -/
theorem legacy_parse_amended_witness :
    parse_arduino_message ['I', ',', '5', '1', '2', ',', '1', '0', '0', '0'] =
      .ok (.Sensor { finger := .Index,
                     pressure := ((512 : Nat) : ℚ) / 1023,
                     timestamp_ms := 1000 })
    ∧ (0 : ℚ) ≤ ((512 : Nat) : ℚ) / 1023
    ∧ ((512 : Nat) : ℚ) / 1023 ≤ 1 := by
  have h := legacy_parse_amended
    ['I', ',', '5', '1', '2', ',', '1', '0', '0', '0'] 'I'
    ['5', '1', '2'] ['1', '0', '0', '0'] 512 1000 .Index
    (by decide) rfl (Or.inl ⟨rfl, rfl⟩) rfl (by decide) rfl (by decide)
  exact ⟨h.1, h.2.1, h.2.2 (by decide)⟩

end Tactilis
